import Mathlib

/-!
# Verification of the session-memory compaction pipeline and query-disambiguation
# state machine (src/src/agents.py, src/src/database.py, src/src/utils.py)

This file is a shallow embedding of the core of the Agent-Memory repository:

* the data model of `src/src/schemas.py` (`Message`, `UserProfile`,
  `SessionSummary`, `MessageRange`, `SessionMemoryOutput`, `QueryUnderstanding`);
* the per-session database operations of `src/src/database.py`
  (`get_messages`, `get_recent_messages`, `mark_messages_as_summarized`,
  `save_summary`), with a single session's rows modelled as a list ordered by
  timestamp ascending (ties broken by insertion order, matching the SQL
  `ORDER BY timestamp ASC` over autoincrement ids), and the sqlite connection
  context manager (commit on success / rollback on exception) modelled as an
  atomic transaction over a list of row effects;
* the token counting of `src/src/utils.py` (`count_message_tokens`), with the
  external tiktoken encoder abstracted as an arbitrary function
  `tc : String → Nat`;
* the four pipeline agents of `src/src/agents.py` (`context_agent`,
  `summarizer_agent`, `query_agent`, `response_agent`) and the LangGraph
  wiring of `src/src/graph.py` (`runTurn`).

External collaborators (the Gemini generation service, `json.loads` +
pydantic validation) are abstracted as oracle parameters: each LLM invocation
is an `Except String String` (an exception or the returned text), and each
structured parse is a function `String → Option _` (`none` = the
`json.JSONDecodeError` / generic `Exception` path of the source's
`try`/`except`). Timestamp fields are dropped; list position plays the role
of the timestamp order. Prompt-string construction is omitted where the text
only feeds the abstracted generation service.
-/

namespace AgentMemory

/-- `Message` of `schemas.py` / a row of the `messages` table. `archived`
is the `is_summarized` column (default 0 on insert); the `timestamp` column
is modelled by list position. -/
structure Message where
  role : String
  content : String
  tokenCount : Nat
  archived : Bool
deriving Repr, DecidableEq

/-- `UserProfile` of `schemas.py`. -/
structure UserProfile where
  preferences : List String
  constraints : List String
deriving Repr, DecidableEq

/-- `SessionSummary` of `schemas.py`. -/
structure SessionSummary where
  userProfile : UserProfile
  keyFacts : List String
  decisions : List String
  openQuestions : List String
  todos : List String
deriving Repr, DecidableEq

/-- `MessageRange` of `schemas.py` (inclusive indices). -/
structure MessageRange where
  fromIndex : Nat
  toIndex : Nat
deriving Repr, DecidableEq

/-- `SessionMemoryOutput` of `schemas.py` (timestamp dropped). -/
structure SessionMemoryOutput where
  sessionSummary : SessionSummary
  messageRangeSummarized : MessageRange
deriving Repr, DecidableEq

/-- `QueryUnderstanding` of `schemas.py`. -/
structure QueryUnderstanding where
  originalQuery : String
  isAmbiguous : Bool
  rewrittenQuery : Option String
  possibleInterpretations : List String
  neededContextFromMemory : List String
  clarifyingQuestions : List String
  finalAugmentedContext : String
deriving Repr, DecidableEq

/-- The rows of one session in the sqlite database of `database.py`:
`messages` ordered by timestamp ascending (index = absolute message index),
`summaries` ordered by timestamp ascending. -/
structure SessionDB where
  messages : List Message
  summaries : List SessionMemoryOutput
deriving Repr, DecidableEq

/-- The empty session: a session exists implicitly once its first row is
stored. -/
def emptyDB : SessionDB := ⟨[], []⟩

/-- `Database.get_messages` (database.py:141-187): all messages of the
session in timestamp order, optionally filtered by `is_summarized = 0`. -/
def getMessages (db : SessionDB) (excludeSummarized : Bool) : List Message :=
  if excludeSummarized then db.messages.filter (fun m => !m.archived)
  else db.messages

/-- `Database.get_recent_messages` (database.py:189-213): `ORDER BY
timestamp DESC LIMIT n`, then reversed back to chronological order — i.e.
the last `n` messages in timestamp order. -/
def getRecentMessages (db : SessionDB) (n : Nat) : List Message :=
  db.messages.drop (db.messages.length - n)

/-- One element step of the `UPDATE messages SET is_summarized = 1 ... LIMIT
cnt OFFSET f` statement (database.py:219-230 and 287-303): the row at
position `i` (timestamp rank) is flagged iff `f ≤ i < f + cnt`. -/
def markRangeAux (f cnt : Nat) : Nat → List Message → List Message
  | _, [] => []
  | i, m :: ms =>
      (if f ≤ i ∧ i < f + cnt then { m with archived := true } else m)
        :: markRangeAux f cnt (i + 1) ms

/-- `Database.mark_messages_as_summarized` (database.py:215-230): flags the
rows selected by `LIMIT (to_index - from_index + 1) OFFSET from_index` over
the timestamp-ascending ordering. -/
def markRange (msgs : List Message) (fromIndex toIndex : Nat) : List Message :=
  markRangeAux fromIndex (toIndex + 1 - fromIndex) 0 msgs

/-- One SQL statement executed inside the `save_summary` transaction. -/
inductive TxnEffect where
  | insertSummary (out : SessionMemoryOutput)
  | archiveRange (fromIndex toIndex : Nat)
deriving Repr, DecidableEq

/-- Applying one committed statement to the durable session state. -/
def applyEffect (db : SessionDB) : TxnEffect → SessionDB
  | .insertSummary out => { db with summaries := db.summaries ++ [out] }
  | .archiveRange f t => { db with messages := markRange db.messages f t }

/-- The two statements issued by `Database.save_summary`
(database.py:261-305): INSERT the summary row, then UPDATE the
`is_summarized` flags of the covered range, on the same connection. -/
def saveSummaryEffects (out : SessionMemoryOutput) : List TxnEffect :=
  [ .insertSummary out,
    .archiveRange out.messageRangeSummarized.fromIndex
      out.messageRangeSummarized.toIndex ]

/-- The `_get_connection` context manager (database.py:32-44): on success
the whole statement list is committed as one unit; on an exception anywhere
in the transaction the connection rolls back and the durable state is
unchanged. `failure = true` models an exception during the transaction. -/
def runTxn (db : SessionDB) (effects : List TxnEffect) (failure : Bool) :
    SessionDB :=
  if failure then db else effects.foldl applyEffect db

/-- `Database.save_summary` as observed through durable states. -/
def saveSummary (db : SessionDB) (out : SessionMemoryOutput)
    (failure : Bool) : SessionDB :=
  runTxn db (saveSummaryEffects out) failure

/-- `app.py`'s `save_message` (database.py:115-139): INSERT at the end of
the timestamp order; the `is_summarized` column defaults to 0. -/
def appendMessage (db : SessionDB) (m : Message) : SessionDB :=
  { db with messages := db.messages ++ [{ m with archived := false }] }

/-! ## Token counting (utils.py) -/

/-- `TokenCounter.count_message_tokens` (utils.py:39-54): content tokens +
role-label tokens + a fixed structural overhead of 4, where `tc` abstracts
the tiktoken encoder `count_tokens`. -/
def countMessageTokens (tc : String → Nat) (m : Message) : Nat :=
  tc m.content + tc m.role + 4

/-! ## Context agent (agents.py:58-94) -/

/-- The state fields produced by `context_agent`. -/
structure ContextResult where
  messages : List Message
  totalTokens : Nat
  needsSummarization : Bool
deriving Repr, DecidableEq

/-- `Agents.context_agent` (agents.py:58-94): load the non-archived
messages, sum their per-message token counts, and flag summarization iff
the sum strictly exceeds the configured threshold. Read-only: it performs
no database write. -/
def contextAgent (tc : String → Nat) (threshold : Nat) (db : SessionDB) :
    ContextResult :=
  let messages := getMessages db true
  let totalTokens := (messages.map (countMessageTokens tc)).sum
  { messages := messages
    totalTokens := totalTokens
    needsSummarization := totalTokens > threshold }

/-! ## Summarizer agent (agents.py:98-292) -/

/-- The fallback value built in both `except` branches of
`summarizer_agent` (agents.py:231-252): a `SessionSummary` with every list
empty. -/
def emptySessionSummary : SessionSummary :=
  { userProfile := { preferences := [], constraints := [] }
    keyFacts := []
    decisions := []
    openQuestions := []
    todos := [] }

/-- `Agents.summarizer_agent` (agents.py:98-292), observed through the
durable session state.

* `messages` is `state["messages"]`, the non-archived list loaded by
  `context_agent`; if empty the agent returns the state unchanged.
* `llm` is the `llm_structured.invoke` call (agents.py:207-210); it runs
  before the `try` block and before any persistence, so an exception there
  propagates with no write (`.error`).
* `parse` abstracts the wrapper-stripping + `json.loads` +
  `SessionSummary(**dict)` step (agents.py:215-229); `none` is the
  `except` path, which substitutes `emptySessionSummary`.
* The absolute range is computed from the full ordered log
  (agents.py:256-262), the summary is persisted via the atomic
  `save_summary` transaction, and `mark_messages_as_summarized` is then
  called again on the same range (agents.py:278-282). -/
def summarizerAgent (parse : String → Option SessionSummary)
    (llm : Except String String) (db : SessionDB)
    (messages : List Message) :
    SessionDB × Except String (Option SessionMemoryOutput) :=
  if messages.isEmpty then (db, .ok none)
  else
    match llm with
    | .error e => (db, .error e)
    | .ok response =>
      let sessionSummary := (parse response).getD emptySessionSummary
      let totalMessagesInDb := (getMessages db false).length
      let fromIndex := totalMessagesInDb - messages.length
      let toIndex := totalMessagesInDb - 1
      let out : SessionMemoryOutput :=
        { sessionSummary := sessionSummary
          messageRangeSummarized := { fromIndex := fromIndex, toIndex := toIndex } }
      let db1 := saveSummary db out false
      let db2 := { db1 with messages := markRange db1.messages fromIndex toIndex }
      (db2, .ok (some out))

/-! ## Query understanding agent (agents.py:296-453) -/

/-- The role-tagged rendering of the recent window (agents.py:322-328):
`"ROLE: content"` lines joined by newlines, with the literal
`"No previous conversation."` substituted when the window is empty. -/
def recentContextText (db : SessionDB) : String :=
  let recentMessages := getRecentMessages db 10
  let recentContext := String.intercalate "\n"
    (recentMessages.map (fun m => m.role.toUpper ++ ": " ++ m.content))
  if recentContext = "" then "No previous conversation." else recentContext

/-- The deterministic fallback of both `except` branches of `query_agent`
(agents.py:426-441): not ambiguous, augmented context = the recent-window
text, every other field at its schema default. -/
def fallbackQueryUnderstanding (userQuery : String) (db : SessionDB) :
    QueryUnderstanding :=
  { originalQuery := userQuery
    isAmbiguous := false
    rewrittenQuery := none
    possibleInterpretations := []
    neededContextFromMemory := []
    clarifyingQuestions := []
    finalAugmentedContext := recentContextText db }

/-- `Agents.query_agent` (agents.py:296-453). Returns the
`query_understanding` state field (initially `None` per `graph.run`,
graph.py:100-109).

* If the user query is empty (Python falsiness of `""`), the state is
  returned unchanged (agents.py:316-317).
* `llm` is the `llm_structured.invoke` call (agents.py:399-402); it runs
  before the `try` block, so an exception propagates.
* `parse` abstracts wrapper stripping + `json.loads` + `None`-sanitizing +
  `QueryUnderstanding(**dict)` (agents.py:405-425); `none` is the `except`
  path yielding `fallbackQueryUnderstanding`.

The agent performs no database write. -/
def queryAgent (parse : String → Option QueryUnderstanding)
    (llm : Except String String) (db : SessionDB) (userQuery : String) :
    Except String (Option QueryUnderstanding) :=
  if userQuery = "" then .ok none
  else
    match llm with
    | .error e => .error e
    | .ok response =>
      let qu := (parse response).getD (fallbackQueryUnderstanding userQuery db)
      .ok (some qu)

/-! ## Response agent (agents.py:457-571) -/

/-- Python truthiness test `not rewritten_query` on an `Optional[str]`:
true for `None` and for the empty string. -/
def isBlank : Option String → Bool
  | none => true
  | some s => s = ""

/-- The hard-stop condition of `response_agent` (agents.py:483-485):
ambiguous AND no (non-empty) rewritten query AND non-empty clarifying
questions. -/
def hardStopCond (qu : QueryUnderstanding) : Bool :=
  qu.isAmbiguous && isBlank qu.rewrittenQuery && !qu.clarifyingQuestions.isEmpty

/-- The `"\n".join(f"{i+1}. {q}" ...)` enumeration (agents.py:486-488). -/
def enumerateLines (items : List String) : String :=
  String.intercalate "\n"
    (items.enum.map (fun p => toString (p.1 + 1) ++ ". " ++ p.2))

/-- The hard-stop response text (agents.py:489-492). -/
def clarificationResponse (questions : List String) : String :=
  "I need some clarification:\n\n" ++ enumerateLines questions

/-- What `response_agent` produces: the `final_response` state field,
plus an observation of whether the generation service was invoked for the
answer (`llm_normal.invoke`, agents.py:551-558). -/
structure ResponseResult where
  finalResponse : String
  genCalled : Bool
deriving Repr, DecidableEq

/-- `Agents.response_agent` (agents.py:457-571).

* With no `query_understanding` in the state it returns the fixed text
  `"I need a query to respond to."` (agents.py:478-479) without calling
  the generation service.
* The hard-stop branch (agents.py:483-492) returns only the enumerated
  clarifying questions, with no generation call.
* Otherwise `llm` (the `llm_normal.invoke` call) produces the answer;
  prompt construction is omitted as it only feeds the abstracted service. -/
def responseAgent (llm : Except String String)
    (qu? : Option QueryUnderstanding) : Except String ResponseResult :=
  match qu? with
  | none => .ok { finalResponse := "I need a query to respond to.", genCalled := false }
  | some qu =>
    if hardStopCond qu then
      .ok { finalResponse := clarificationResponse qu.clarifyingQuestions
            genCalled := false }
    else
      match llm with
      | .error e => .error e
      | .ok response => .ok { finalResponse := response, genCalled := true }

/-! ## Pipeline orchestrator (graph.py) -/

/-- The external collaborators consumed during one turn: the structured
parses and the three generation-service invocations. -/
structure TurnOracles where
  parseSummary : String → Option SessionSummary
  parseQuery : String → Option QueryUnderstanding
  summLLM : Except String String
  queryLLM : Except String String
  respLLM : Except String String

/-- The composite result `graph.invoke` returns to the caller. -/
structure TurnOutcome where
  sessionSummary : Option SessionMemoryOutput
  queryUnderstanding : Option QueryUnderstanding
  finalResponse : String
  genCalled : Bool
deriving Repr, DecidableEq

/-- `ConversationGraph.run` (graph.py:47-114): context agent, then the
summarizer iff `needs_summarization`, then the query agent, then the
response agent, strictly in sequence; an uncaught exception at any stage
aborts the turn, leaving the durable state as the stages already completed
left it. `app.py` saves the turn's own user/assistant messages only after
the graph returns (app.py:426-457), so `db` holds exactly the messages of
previous turns. -/
def runTurn (tc : String → Nat) (threshold : Nat) (o : TurnOracles)
    (db : SessionDB) (userQuery : String) :
    SessionDB × Except String TurnOutcome :=
  let ctx := contextAgent tc threshold db
  let step1 :=
    if ctx.needsSummarization then
      summarizerAgent o.parseSummary o.summLLM db ctx.messages
    else (db, .ok none)
  match step1 with
  | (db1, .error e) => (db1, .error e)
  | (db1, .ok summOut) =>
    match queryAgent o.parseQuery o.queryLLM db1 userQuery with
    | .error e => (db1, .error e)
    | .ok qu? =>
      match responseAgent o.respLLM qu? with
      | .error e => (db1, .error e)
      | .ok r =>
        (db1, .ok { sessionSummary := summOut
                    queryUnderstanding := qu?
                    finalResponse := r.finalResponse
                    genCalled := r.genCalled })

/-- The serialized per-session evolutions of the durable state, as the
spec's single-writer assumption permits: starting from the empty session,
`app.py` appends messages (after each turn) and the summarizer compacts the
currently non-archived messages (with whatever text the generation service
returned and whatever the parse produced). -/
inductive Reachable : SessionDB → Prop
  | init : Reachable emptyDB
  | append (m : Message) {db : SessionDB} :
      Reachable db → Reachable (appendMessage db m)
  | compact (parse : String → Option SessionSummary) (response : String)
      {db : SessionDB} :
      Reachable db →
      Reachable (summarizerAgent parse (.ok response) db (getMessages db true)).1

/-! ## Library lemmas about the embedded operations -/

/-- Setting the `is_summarized` flag of one row. -/
def setArchived (m : Message) : Message := { m with archived := true }

theorem markRangeAux_length (f cnt : Nat) :
    ∀ (i : Nat) (l : List Message), (markRangeAux f cnt i l).length = l.length := by
  intro i l
  induction l generalizing i with
  | nil => rfl
  | cons m ms ih => simp [markRangeAux, ih]

theorem markRange_length (msgs : List Message) (f t : Nat) :
    (markRange msgs f t).length = msgs.length :=
  markRangeAux_length _ _ _ _

theorem markRangeAux_append (f cnt : Nat) (xs ys : List Message) :
    ∀ i, markRangeAux f cnt i (xs ++ ys)
      = markRangeAux f cnt i xs ++ markRangeAux f cnt (i + xs.length) ys := by
  induction xs with
  | nil => intro i; simp [markRangeAux]
  | cons m ms ih =>
      intro i
      simp only [List.cons_append, markRangeAux, List.append_eq, ih (i + 1),
        List.length_cons]
      have h : i + 1 + ms.length = i + (ms.length + 1) := by omega
      rw [h]

/-- Rows whose timestamp rank lies entirely below the OFFSET are left
unchanged. -/
theorem markRangeAux_of_below (f cnt : Nat) :
    ∀ (i : Nat) (xs : List Message), i + xs.length ≤ f →
      markRangeAux f cnt i xs = xs := by
  intro i xs
  induction xs generalizing i with
  | nil => intro _; rfl
  | cons m ms ih =>
      intro h
      simp only [List.length_cons] at h
      have h1 : ¬ (f ≤ i ∧ i < f + cnt) := by omega
      simp [markRangeAux, h1, ih (i + 1) (by omega)]

/-- Rows whose timestamp rank lies entirely inside the selected window all
get flagged. -/
theorem markRangeAux_of_inside (f cnt : Nat) :
    ∀ (i : Nat) (xs : List Message), f ≤ i → i + xs.length ≤ f + cnt →
      markRangeAux f cnt i xs = xs.map setArchived := by
  intro i xs
  induction xs generalizing i with
  | nil => intro _ _; rfl
  | cons m ms ih =>
      intro h1 h2
      simp only [List.length_cons] at h2
      have hc : f ≤ i ∧ i < f + cnt := by omega
      simp [markRangeAux, hc, ih (i + 1) (by omega) (by omega), List.map, setArchived]

/-- Flagging an already-flagged window again is the identity: re-running
the UPDATE leaves the rows unchanged. -/
theorem markRangeAux_idem (f cnt : Nat) :
    ∀ (i : Nat) (l : List Message),
      markRangeAux f cnt i (markRangeAux f cnt i l) = markRangeAux f cnt i l := by
  intro i l
  induction l generalizing i with
  | nil => rfl
  | cons m ms ih =>
      by_cases hc : f ≤ i ∧ i < f + cnt
      · simp [markRangeAux, hc, ih (i + 1)]
      · simp [markRangeAux, hc, ih (i + 1)]

theorem markRange_idem (msgs : List Message) (f t : Nat) :
    markRange (markRange msgs f t) f t = markRange msgs f t :=
  markRangeAux_idem _ _ _ _

/-- Element-wise description of `markRangeAux` through `List.getD`. -/
theorem markRangeAux_getD (f cnt : Nat) (d : Message) :
    ∀ (i j : Nat) (l : List Message), j < l.length →
      (markRangeAux f cnt i l).getD j d
        = (if f ≤ i + j ∧ i + j < f + cnt then setArchived (l.getD j d)
           else l.getD j d) := by
  intro i j l
  induction l generalizing i j with
  | nil => intro h; simp at h
  | cons m ms ih =>
      intro h
      match j with
      | 0 => simp [markRangeAux, List.getD, setArchived]
      | j + 1 =>
          simp only [List.length_cons] at h
          have := ih (i + 1) j (by omega)
          simp only [markRangeAux, List.getD_cons_succ, this]
          have harith : i + 1 + j = i + (j + 1) := by omega
          rw [harith]

/-- Element-wise description of `markRange`: for `from ≤ to`, exactly the
rows with rank in `[from, to]` get their flag set, all others keep it. -/
theorem markRange_getD (msgs : List Message) (f t : Nat) (d : Message)
    (hft : f ≤ t) (j : Nat) (hj : j < msgs.length) :
    (markRange msgs f t).getD j d
      = (if f ≤ j ∧ j ≤ t then setArchived (msgs.getD j d) else msgs.getD j d) := by
  have := markRangeAux_getD f (t + 1 - f) d 0 j msgs hj
  simp only [markRange, Nat.zero_add] at this ⊢
  rw [this]
  have : (f ≤ j ∧ j < f + (t + 1 - f)) ↔ (f ≤ j ∧ j ≤ t) := by omega
  simp [this]

/-- A fully-archived block followed by a fully-live block: the UPDATE with
`OFFSET = |arch|` and `LIMIT = |live|` archives precisely the live block. -/
theorem markRange_arch_live (arch live : List Message)
    (hlen : live.length ≥ 1) :
    markRange (arch ++ live) arch.length (arch.length + live.length - 1)
      = arch ++ live.map setArchived := by
  unfold markRange
  rw [markRangeAux_append]
  rw [markRangeAux_of_below _ _ 0 arch (by omega)]
  rw [markRangeAux_of_inside _ _ _ live (by omega) (by omega)]

/-- Filtering `is_summarized = 0` over an archived block followed by a live
block returns exactly the live block. -/
theorem filter_arch_live (arch live : List Message)
    (ha : ∀ m ∈ arch, m.archived = true) (hl : ∀ m ∈ live, m.archived = false) :
    (arch ++ live).filter (fun m => !m.archived) = live := by
  rw [List.filter_append]
  have h1 : arch.filter (fun m => !m.archived) = [] := by
    apply List.filter_eq_nil_iff.mpr
    intro m hm
    simp [ha m hm]
  have h2 : live.filter (fun m => !m.archived) = live := by
    apply List.filter_eq_self.mpr
    intro m hm
    simp [hl m hm]
  rw [h1, h2, List.nil_append]

/-! ## Range contiguity machinery -/

/-- The `message_range_summarized` column of the session's summaries, in
chronological order. -/
def ranges (db : SessionDB) : List MessageRange :=
  db.summaries.map (·.messageRangeSummarized)

/-- `contiguousFrom s rs`: the ranges `rs` tile `[s, …)` gaplessly — each
range starts where the previous one stopped (plus one) and is
well-formed. -/
def contiguousFrom : Nat → List MessageRange → Prop
  | _, [] => True
  | s, r :: rs =>
      r.fromIndex = s ∧ r.fromIndex ≤ r.toIndex ∧ contiguousFrom (r.toIndex + 1) rs

/-- The first index not yet covered when the tiling starts at `s`. -/
def endFrom (s : Nat) (rs : List MessageRange) : Nat :=
  rs.foldl (fun _ r => r.toIndex + 1) s

theorem endFrom_snoc (s : Nat) (rs : List MessageRange) (r : MessageRange) :
    endFrom s (rs ++ [r]) = r.toIndex + 1 := by
  simp [endFrom, List.foldl_append]

theorem contiguousFrom_snoc (r : MessageRange) :
    ∀ (s : Nat) (rs : List MessageRange), contiguousFrom s rs →
      r.fromIndex = endFrom s rs → r.fromIndex ≤ r.toIndex →
      contiguousFrom s (rs ++ [r]) := by
  intro s rs
  induction rs generalizing s with
  | nil =>
      intro _ h2 h3
      exact ⟨h2, h3, trivial⟩
  | cons r0 rs ih =>
      intro h1 h2 h3
      obtain ⟨ha, hb, hc⟩ := h1
      exact ⟨ha, hb, ih (r0.toIndex + 1) hc h2 h3⟩

/-- The pairwise consequence of the tiling predicate: each summary starts
right after its predecessor ends. -/
theorem contiguousFrom_pairwise :
    ∀ (s : Nat) (rs : List MessageRange), contiguousFrom s rs →
      ∀ (i : Nat) (h1 : i + 1 < rs.length) (h2 : i < rs.length),
        (rs.get ⟨i + 1, h1⟩).fromIndex = (rs.get ⟨i, h2⟩).toIndex + 1 := by
  intro s rs
  induction rs generalizing s with
  | nil => intro _ i h1 _; simp at h1
  | cons r0 rs ih =>
      intro h i h1 h2
      obtain ⟨_, _, hc⟩ := h
      match i with
      | 0 =>
          simp only [List.length_cons] at h1
          match rs, hc with
          | r1 :: rs', hc' => exact hc'.1.symm ▸ rfl
      | i + 1 =>
          simp only [List.length_cons] at h1 h2
          exact ih (r0.toIndex + 1) hc i (by omega) (by omega)

/-- The archived-prefix invariant of a session under the serialized
compaction stream: the log splits into an archived block followed by a
live block, the summaries tile `[0, …)` contiguously, and together they
cover exactly the archived block. -/
def Inv (db : SessionDB) : Prop :=
  ∃ arch live : List Message,
    db.messages = arch ++ live ∧
    (∀ m ∈ arch, m.archived = true) ∧
    (∀ m ∈ live, m.archived = false) ∧
    contiguousFrom 0 (ranges db) ∧
    endFrom 0 (ranges db) = arch.length

/-- Computation of the summarizer's durable effect when its generation call
succeeds and it is fed the session's live messages (the double
`mark_messages_as_summarized` collapses by idempotence). -/
theorem summarizerAgent_fst (parse : String → Option SessionSummary)
    (response : String) (db : SessionDB) :
    (summarizerAgent parse (.ok response) db (getMessages db true)).1
      = if (getMessages db true).isEmpty then db
        else
          { messages :=
              markRange db.messages
                (db.messages.length - (getMessages db true).length)
                (db.messages.length - 1)
            summaries := db.summaries ++
              [{ sessionSummary := (parse response).getD emptySessionSummary
                 messageRangeSummarized :=
                   { fromIndex := db.messages.length - (getMessages db true).length
                     toIndex := db.messages.length - 1 } }] } := by
  by_cases h : (getMessages db true).isEmpty
  · simp [summarizerAgent, h]
  · simp only [summarizerAgent, h, if_false, Bool.false_eq_true]
    have hfull : getMessages db false = db.messages := rfl
    simp only [hfull, saveSummary, runTxn, saveSummaryEffects, List.foldl,
      applyEffect, if_false, Bool.false_eq_true]
    exact congrArg (fun ms => SessionDB.mk ms _) (markRange_idem _ _ _)

theorem inv_empty : Inv emptyDB := by
  refine ⟨[], [], rfl, ?_, ?_, trivial, rfl⟩ <;> intro m hm <;> simp at hm

theorem inv_append (db : SessionDB) (m : Message) (h : Inv db) :
    Inv (appendMessage db m) := by
  obtain ⟨arch, live, hsplit, ha, hl, hc, he⟩ := h
  refine ⟨arch, live ++ [{ m with archived := false }], ?_, ha, ?_, hc, he⟩
  · simp [appendMessage, hsplit]
  · intro x hx
    rcases List.mem_append.mp hx with hx | hx
    · exact hl x hx
    · simp at hx; simp [hx]

theorem inv_compact (parse : String → Option SessionSummary)
    (response : String) (db : SessionDB) (h : Inv db) :
    Inv (summarizerAgent parse (.ok response) db (getMessages db true)).1 := by
  obtain ⟨arch, live, hsplit, ha, hl, hc, he⟩ := h
  have hlive : getMessages db true = live := by
    simp only [getMessages, if_true, hsplit]
    exact filter_arch_live arch live ha hl
  rw [summarizerAgent_fst]
  by_cases hemp : (getMessages db true).isEmpty
  · simp only [hemp, if_true]
    exact ⟨arch, live, hsplit, ha, hl, hc, he⟩
  · simp only [hemp, if_false, Bool.false_eq_true]
    rw [hlive] at hemp ⊢
    have hlen : live.length ≥ 1 := by
      cases live with
      | nil => simp at hemp
      | cons x xs => simp
    have hmsglen : db.messages.length = arch.length + live.length := by
      simp [hsplit]
    have hfrom : db.messages.length - live.length = arch.length := by omega
    have hto : db.messages.length - 1 = arch.length + live.length - 1 := by omega
    have hmark : markRange db.messages (db.messages.length - live.length)
        (db.messages.length - 1) = arch ++ live.map setArchived := by
      rw [hfrom, hto, hsplit]
      exact markRange_arch_live arch live hlen
    refine ⟨arch ++ live.map setArchived, [], ?_, ?_, ?_, ?_, ?_⟩
    · simp [hmark]
    · intro x hx
      rcases List.mem_append.mp hx with hx | hx
      · exact ha x hx
      · obtain ⟨y, _, hy⟩ := List.mem_map.mp hx
        rw [← hy]; rfl
    · intro x hx; simp at hx
    · simp only [ranges, List.map_append, List.map_cons, List.map_nil] at hc he ⊢
      refine contiguousFrom_snoc _ 0 _ hc ?_ ?_
      · rw [he]; exact hfrom
      · show db.messages.length - live.length ≤ db.messages.length - 1
        omega
    · simp only [ranges, List.map_append, List.map_cons, List.map_nil] at he ⊢
      rw [endFrom_snoc]
      show db.messages.length - 1 + 1 = (arch ++ live.map setArchived).length
      simp only [List.length_append, List.length_map]
      omega

/-- Every durably reachable session state satisfies the archived-prefix /
contiguous-tiling invariant. -/
theorem inv_of_reachable (db : SessionDB) (h : Reachable db) : Inv db := by
  induction h with
  | init => exact inv_empty
  | append m _ ih => exact inv_append _ m ih
  | compact parse response _ ih => exact inv_compact parse response _ ih

/-- Full computation of the summarizer on a non-empty message list with a
successful generation call: one summary row whose range is computed from
the full log, and the covered range archived (the summarizer's redundant
second `mark_messages_as_summarized` collapses by idempotence). -/
theorem summarizerAgent_ok_eq (parse : String → Option SessionSummary)
    (response : String) (db : SessionDB) (messages : List Message)
    (hm : messages ≠ []) :
    summarizerAgent parse (.ok response) db messages =
      ({ messages := markRange db.messages
           (db.messages.length - messages.length) (db.messages.length - 1)
         summaries := db.summaries ++
           [{ sessionSummary := (parse response).getD emptySessionSummary
              messageRangeSummarized :=
                { fromIndex := db.messages.length - messages.length
                  toIndex := db.messages.length - 1 } }] },
       .ok (some
         { sessionSummary := (parse response).getD emptySessionSummary
           messageRangeSummarized :=
             { fromIndex := db.messages.length - messages.length
               toIndex := db.messages.length - 1 } })) := by
  have h : messages.isEmpty = false := by
    cases messages with
    | nil => exact absurd rfl hm
    | cons a l => rfl
  have hfull : getMessages db false = db.messages := rfl
  simp only [summarizerAgent, h, if_false, Bool.false_eq_true, hfull,
    saveSummary, runTxn, saveSummaryEffects, List.foldl, applyEffect]
  exact congrArg (fun ms => (SessionDB.mk ms _, _)) (markRange_idem _ _ _)

/-! ## The claims -/

/-- C1: the compaction trigger computes `live_tokens` as the sum over the
non-archived messages of content tokens + role-label tokens + 4, and
requires compaction iff `live_tokens` strictly exceeds the threshold; a sum
equal to the threshold never triggers. -/
theorem c1_threshold_trigger (tc : String → Nat) (threshold : Nat)
    (db : SessionDB) :
    ((contextAgent tc threshold db).needsSummarization = true ↔
      ((getMessages db true).map (fun m => tc m.content + tc m.role + 4)).sum
        > threshold) ∧
    (((getMessages db true).map (fun m => tc m.content + tc m.role + 4)).sum
        = threshold →
      (contextAgent tc threshold db).needsSummarization = false) := by
  have hsum : (List.map (countMessageTokens tc) (getMessages db true)).sum
      = ((getMessages db true).map (fun m => tc m.content + tc m.role + 4)).sum := rfl
  refine ⟨?_, ?_⟩
  · simp only [contextAgent, decide_eq_true_eq, gt_iff_lt]
    rw [hsum]
  · intro h
    simp only [contextAgent, decide_eq_false_iff_not, gt_iff_lt, not_lt]
    rw [hsum, h]

/-- Witness for C1 at a concrete session: two live messages summing to
exactly the threshold do not trigger compaction. -/
theorem c1_threshold_trigger_witness :
    (contextAgent (fun s => s.length) 26
      ⟨[⟨"user", "hello", 13, false⟩, ⟨"assistant", "", 13, false⟩], []⟩).needsSummarization
      = false :=
  (c1_threshold_trigger (fun s => s.length) 26
    ⟨[⟨"user", "hello", 13, false⟩, ⟨"assistant", "", 13, false⟩], []⟩).2
    (by decide)

/-- C2: on a non-empty list of non-archived messages the persisted range is
`from_index = (total messages stored, archived included) − (messages just
merged)` and `to_index = total − 1`, computed from the full ordered log. -/
theorem c2_absolute_range (parse : String → Option SessionSummary)
    (response : String) (db : SessionDB) (messages : List Message)
    (hm : messages ≠ []) :
    ∃ out : SessionMemoryOutput,
      (summarizerAgent parse (.ok response) db messages).2 = .ok (some out) ∧
      out.messageRangeSummarized.fromIndex
        = (getMessages db false).length - messages.length ∧
      out.messageRangeSummarized.toIndex = (getMessages db false).length - 1 := by
  refine ⟨{ sessionSummary := (parse response).getD emptySessionSummary
            messageRangeSummarized :=
              { fromIndex := db.messages.length - messages.length
                toIndex := db.messages.length - 1 } }, ?_, rfl, rfl⟩
  rw [summarizerAgent_ok_eq parse response db messages hm]

/-- Witness for C2: a session with one archived and two live messages gets
the range `[1, 2]`. -/
theorem c2_absolute_range_witness :
    ∃ out : SessionMemoryOutput,
      (summarizerAgent (fun _ => none) (.ok "r")
        ⟨[⟨"user", "a", 5, true⟩, ⟨"user", "b", 5, false⟩, ⟨"assistant", "c", 5, false⟩], []⟩
        [⟨"user", "b", 5, false⟩, ⟨"assistant", "c", 5, false⟩]).2 = .ok (some out) ∧
      out.messageRangeSummarized.fromIndex = 1 ∧
      out.messageRangeSummarized.toIndex = 2 :=
  c2_absolute_range (fun _ => none) "r"
    ⟨[⟨"user", "a", 5, true⟩, ⟨"user", "b", 5, false⟩, ⟨"assistant", "c", 5, false⟩], []⟩
    [⟨"user", "b", 5, false⟩, ⟨"assistant", "c", 5, false⟩] (by decide)

/-- C3: under the serialized compaction stream, any two consecutive
persisted summaries have contiguous, non-overlapping ranges: the later
summary starts at the earlier summary's `to_index + 1`. -/
theorem c3_range_contiguity (db : SessionDB) (h : Reachable db)
    (i : Nat) (h1 : i + 1 < (ranges db).length) (h2 : i < (ranges db).length) :
    ((ranges db).get ⟨i + 1, h1⟩).fromIndex
      = ((ranges db).get ⟨i, h2⟩).toIndex + 1 := by
  obtain ⟨arch, live, _, _, _, hc, _⟩ := inv_of_reachable db h
  exact contiguousFrom_pairwise 0 (ranges db) hc i h1 h2

/-- A concrete serialized history: two messages, a compaction, one more
message, a second compaction. -/
def dbC3 : SessionDB :=
  (summarizerAgent (fun _ => none) (.ok "y")
    (appendMessage
      (summarizerAgent (fun _ => none) (.ok "x")
        (appendMessage (appendMessage emptyDB ⟨"user", "a", 5, false⟩)
          ⟨"assistant", "b", 6, false⟩)
        (getMessages
          (appendMessage (appendMessage emptyDB ⟨"user", "a", 5, false⟩)
            ⟨"assistant", "b", 6, false⟩) true)).1
      ⟨"user", "c", 7, false⟩)
    (getMessages
      (appendMessage
        (summarizerAgent (fun _ => none) (.ok "x")
          (appendMessage (appendMessage emptyDB ⟨"user", "a", 5, false⟩)
            ⟨"assistant", "b", 6, false⟩)
          (getMessages
            (appendMessage (appendMessage emptyDB ⟨"user", "a", 5, false⟩)
              ⟨"assistant", "b", 6, false⟩) true)).1
        ⟨"user", "c", 7, false⟩) true)).1

theorem dbC3_reachable : Reachable dbC3 :=
  .compact _ _ (.append _ (.compact _ _ (.append _ (.append _ .init))))

/-- Witness for C3: in the two-compaction history the second summary's
`from_index` (2) is the first summary's `to_index` (1) plus one. -/
theorem c3_range_contiguity_witness :
    ((ranges dbC3).get ⟨1, by decide⟩).fromIndex
      = ((ranges dbC3).get ⟨0, by decide⟩).toIndex + 1 :=
  c3_range_contiguity dbC3 dbC3_reachable 0 (by decide) (by decide)

/-- C4: the summary insert and the archive-flag update commit as one unit:
every durable state either shows neither effect (in particular on storage
failure, which rolls the whole write back) or both; and the update flags
exactly the rows with index in `[from_index, to_index]`. -/
theorem c4_atomic_save_summary (db : SessionDB) (out : SessionMemoryOutput)
    (failure : Bool) (d : Message)
    (hft : out.messageRangeSummarized.fromIndex ≤ out.messageRangeSummarized.toIndex) :
    (saveSummary db out failure = db ∨
      saveSummary db out failure =
        { messages := markRange db.messages out.messageRangeSummarized.fromIndex
            out.messageRangeSummarized.toIndex
          summaries := db.summaries ++ [out] }) ∧
    (failure = true → saveSummary db out failure = db) ∧
    (failure = false →
      saveSummary db out failure =
        { messages := markRange db.messages out.messageRangeSummarized.fromIndex
            out.messageRangeSummarized.toIndex
          summaries := db.summaries ++ [out] }) ∧
    (∀ j, j < db.messages.length →
      ((markRange db.messages out.messageRangeSummarized.fromIndex
          out.messageRangeSummarized.toIndex).getD j d).archived
        = ((decide (out.messageRangeSummarized.fromIndex ≤ j)
              && decide (j ≤ out.messageRangeSummarized.toIndex))
            || (db.messages.getD j d).archived)) := by
  have hcase : ∀ b : Bool, saveSummary db out b =
      if b then db
      else { messages := markRange db.messages out.messageRangeSummarized.fromIndex
               out.messageRangeSummarized.toIndex
             summaries := db.summaries ++ [out] } := by
    intro b
    cases b <;> rfl
  refine ⟨?_, ?_, ?_, ?_⟩
  · rw [hcase]
    cases failure with
    | true => exact Or.inl rfl
    | false => exact Or.inr rfl
  · intro hf; rw [hf, hcase]; rfl
  · intro hf; rw [hf, hcase]; rfl
  · intro j hj
    rw [markRange_getD db.messages _ _ d hft j hj]
    by_cases hc : out.messageRangeSummarized.fromIndex ≤ j ∧
        j ≤ out.messageRangeSummarized.toIndex
    · simp [hc, setArchived]
    · rw [if_neg hc]
      rcases Decidable.not_and_iff_or_not.mp hc with hc1 | hc1 <;> simp [hc1]

/-- Witness for C4 at a concrete write: both leaves of the disjunction and
the exact-range characterization, evaluated on a two-message session. -/
theorem c4_atomic_save_summary_witness :
    (saveSummary ⟨[⟨"user", "a", 5, false⟩, ⟨"user", "b", 5, false⟩], []⟩
        ⟨emptySessionSummary, ⟨0, 1⟩⟩ false =
        ⟨[⟨"user", "a", 5, false⟩, ⟨"user", "b", 5, false⟩], []⟩ ∨
      saveSummary ⟨[⟨"user", "a", 5, false⟩, ⟨"user", "b", 5, false⟩], []⟩
        ⟨emptySessionSummary, ⟨0, 1⟩⟩ false =
        { messages := markRange [⟨"user", "a", 5, false⟩, ⟨"user", "b", 5, false⟩] 0 1
          summaries := [] ++ [⟨emptySessionSummary, ⟨0, 1⟩⟩] }) :=
  (c4_atomic_save_summary ⟨[⟨"user", "a", 5, false⟩, ⟨"user", "b", 5, false⟩], []⟩
    ⟨emptySessionSummary, ⟨0, 1⟩⟩ false ⟨"user", "", 0, false⟩ (by decide)).1

/-- C5: the response stage takes the hard-stop branch — answering with the
enumerated clarifying questions alone and making no generation call — iff
the query is ambiguous AND the rewritten query is absent or empty AND the
clarifying questions are non-empty. -/
theorem c5_hard_stop_iff (llm : Except String String)
    (qu : QueryUnderstanding) :
    responseAgent llm (some qu)
        = .ok { finalResponse := clarificationResponse qu.clarifyingQuestions
                genCalled := false }
      ↔ (qu.isAmbiguous = true ∧ isBlank qu.rewrittenQuery = true ∧
          qu.clarifyingQuestions ≠ []) := by
  have hempty : qu.clarifyingQuestions ≠ [] ↔
      qu.clarifyingQuestions.isEmpty = false := by
    cases qu.clarifyingQuestions <;> simp
  constructor
  · intro h
    by_cases hs : hardStopCond qu = true
    · have hs' := hs
      simp only [hardStopCond, Bool.and_eq_true, Bool.not_eq_true'] at hs'
      exact ⟨hs'.1.1, hs'.1.2, hempty.mpr hs'.2⟩
    · exfalso
      rw [Bool.not_eq_true] at hs
      simp only [responseAgent, hs, Bool.false_eq_true, if_false] at h
      cases llm with
      | error e => exact Except.noConfusion h
      | ok r =>
          have h2 := Except.ok.inj h
          have h3 : (true : Bool) = false := congrArg ResponseResult.genCalled h2
          exact Bool.noConfusion h3
  · rintro ⟨h1, h2, h3⟩
    have hs : hardStopCond qu = true := by
      simp [hardStopCond, h1, h2, hempty.mp h3]
    simp [responseAgent, hs]

/-- Witness for C5: a genuinely cryptic analysis (ambiguous, no rewrite,
one clarifying question) takes the hard-stop branch with no generation
call even though the generation service is available. -/
theorem c5_hard_stop_iff_witness :
    responseAgent (.ok "generated answer")
      (some { originalQuery := "asdkjh random text"
              isAmbiguous := true
              rewrittenQuery := none
              possibleInterpretations := []
              neededContextFromMemory := []
              clarifyingQuestions := ["What topic do you mean?"]
              finalAugmentedContext := "" })
      = .ok { finalResponse := clarificationResponse ["What topic do you mean?"]
              genCalled := false } :=
  (c5_hard_stop_iff (.ok "generated answer")
    { originalQuery := "asdkjh random text"
      isAmbiguous := true
      rewrittenQuery := none
      possibleInterpretations := []
      neededContextFromMemory := []
      clarifyingQuestions := ["What topic do you mean?"]
      finalAugmentedContext := "" }).mpr ⟨rfl, rfl, by decide⟩

/-- Stepping the whole turn through a successful compaction: whatever the
query analysis parses to and whichever response branch fires, the turn
completes and carries the compaction output. -/
theorem runTurn_of_summarizer (tc : String → Nat) (threshold : Nat)
    (o : TurnOracles) (db db1 : SessionDB) (q qr rr : String)
    (out : SessionMemoryOutput)
    (hneed : (contextAgent tc threshold db).needsSummarization = true)
    (hsumm : summarizerAgent o.parseSummary o.summLLM db (getMessages db true)
      = (db1, .ok (some out)))
    (hq0 : q ≠ "") (hq : o.queryLLM = .ok qr) (hresp : o.respLLM = .ok rr) :
    ∃ tr : TurnOutcome, runTurn tc threshold o db q = (db1, .ok tr) ∧
      tr.sessionSummary = some out := by
  have hmsgs : (contextAgent tc threshold db).messages = getMessages db true := rfl
  simp only [runTurn, hmsgs, hneed, if_true, hsumm, queryAgent, if_neg hq0, hq,
    responseAgent, hresp]
  by_cases hhs : hardStopCond
      ((o.parseQuery qr).getD (fallbackQueryUnderstanding q db1)) = true
  · refine ⟨{ sessionSummary := some out
              queryUnderstanding :=
                some ((o.parseQuery qr).getD (fallbackQueryUnderstanding q db1))
              finalResponse := clarificationResponse
                ((o.parseQuery qr).getD (fallbackQueryUnderstanding q db1)).clarifyingQuestions
              genCalled := false }, ?_, rfl⟩
    simp [hhs]
  · rw [Bool.not_eq_true] at hhs
    refine ⟨{ sessionSummary := some out
              queryUnderstanding :=
                some ((o.parseQuery qr).getD (fallbackQueryUnderstanding q db1))
              finalResponse := rr
              genCalled := true }, ?_, rfl⟩
    simp [hhs]

/-- C6: when the Summarizer's generation response fails to parse, it
substitutes the all-empty `SessionSummary`, still persists the summary
row, still archives the covered range, and the turn still completes with
a response. -/
theorem c6_failsoft_summary_parse (tc : String → Nat) (threshold : Nat)
    (o : TurnOracles) (db : SessionDB) (q response qr rr : String)
    (hneed : (contextAgent tc threshold db).needsSummarization = true)
    (hs : o.summLLM = .ok response)
    (hp : o.parseSummary response = none)
    (hq : o.queryLLM = .ok qr) (hresp : o.respLLM = .ok rr) (hq0 : q ≠ "") :
    ∃ (out : SessionMemoryOutput) (tr : TurnOutcome),
      runTurn tc threshold o db q =
        ({ messages := markRange db.messages
             (db.messages.length - (getMessages db true).length)
             (db.messages.length - 1)
           summaries := db.summaries ++ [out] }, .ok tr) ∧
      out.sessionSummary = emptySessionSummary ∧
      tr.sessionSummary = some out := by
  have hne : getMessages db true ≠ [] := by
    intro hnil
    have h0 : (contextAgent tc threshold db).needsSummarization = false := by
      simp [contextAgent, hnil]
    rw [hneed] at h0
    exact Bool.noConfusion h0
  have hsumm := summarizerAgent_ok_eq o.parseSummary response db
    (getMessages db true) hne
  rw [hp, Option.getD_none] at hsumm
  rw [← hs] at hsumm
  obtain ⟨tr, htr, hts⟩ := runTurn_of_summarizer tc threshold o db _ q qr rr _
    hneed hsumm hq0 hq hresp
  exact ⟨_, tr, htr, rfl, hts⟩

/-- Witness for C6: a one-message session over threshold with a malformed
summarizer response still archives message 0 and produces a turn result
carrying the empty summary. -/
theorem c6_failsoft_summary_parse_witness :
    ∃ (out : SessionMemoryOutput) (tr : TurnOutcome),
      runTurn (fun s => s.length) 0
        { parseSummary := fun _ => none
          parseQuery := fun _ => none
          summLLM := .ok "not json"
          queryLLM := .ok "also not json"
          respLLM := .ok "the answer" }
        ⟨[⟨"user", "hello", 9, false⟩], []⟩ "hi" =
        ({ messages := markRange [⟨"user", "hello", 9, false⟩]
             (([⟨"user", "hello", 9, false⟩] : List Message).length -
               (getMessages ⟨[⟨"user", "hello", 9, false⟩], []⟩ true).length)
             (([⟨"user", "hello", 9, false⟩] : List Message).length - 1)
           summaries := [] ++ [out] }, .ok tr) ∧
      out.sessionSummary = emptySessionSummary ∧
      tr.sessionSummary = some out :=
  c6_failsoft_summary_parse (fun s => s.length) 0
    { parseSummary := fun _ => none
      parseQuery := fun _ => none
      summLLM := .ok "not json"
      queryLLM := .ok "also not json"
      respLLM := .ok "the answer" }
    ⟨[⟨"user", "hello", 9, false⟩], []⟩ "hi" "not json" "also not json" "the answer"
    (by decide) rfl rfl rfl rfl (by decide)

/-- C7: when the Query Disambiguator's generation response fails to parse,
it falls back deterministically to a `QueryUnderstanding` that is not
ambiguous, whose augmented context is the recent-window text, with all
list fields empty and no rewritten query, and the turn continues to the
response stage (which then answers via a generation call). -/
theorem c7_failsoft_query_parse (parse : String → Option QueryUnderstanding)
    (response : String) (db : SessionDB) (q rr : String)
    (hq : q ≠ "") (hp : parse response = none) :
    queryAgent parse (.ok response) db q
        = .ok (some (fallbackQueryUnderstanding q db)) ∧
    (fallbackQueryUnderstanding q db).isAmbiguous = false ∧
    (fallbackQueryUnderstanding q db).finalAugmentedContext = recentContextText db ∧
    (fallbackQueryUnderstanding q db).rewrittenQuery = none ∧
    (fallbackQueryUnderstanding q db).possibleInterpretations = [] ∧
    (fallbackQueryUnderstanding q db).neededContextFromMemory = [] ∧
    (fallbackQueryUnderstanding q db).clarifyingQuestions = [] ∧
    responseAgent (.ok rr) (some (fallbackQueryUnderstanding q db))
      = .ok { finalResponse := rr, genCalled := true } := by
  refine ⟨?_, rfl, rfl, rfl, rfl, rfl, rfl, ?_⟩
  · simp [queryAgent, if_neg hq, hp]
  · have hhs : hardStopCond (fallbackQueryUnderstanding q db) = false := rfl
    simp [responseAgent, hhs]

/-- Witness for C7: a malformed analysis response on an empty session falls
back to the not-ambiguous understanding over `"No previous conversation."`
and the response stage still generates an answer. -/
theorem c7_failsoft_query_parse_witness :
    queryAgent (fun _ => none) (.ok "garbage") emptyDB "fix it"
        = .ok (some (fallbackQueryUnderstanding "fix it" emptyDB)) ∧
      responseAgent (.ok "an answer") (some (fallbackQueryUnderstanding "fix it" emptyDB))
        = .ok { finalResponse := "an answer", genCalled := true } :=
  ⟨(c7_failsoft_query_parse (fun _ => none) "garbage" emptyDB "fix it" "an answer"
      (by decide) rfl).1,
   (c7_failsoft_query_parse (fun _ => none) "garbage" emptyDB "fix it" "an answer"
      (by decide) rfl).2.2.2.2.2.2.2⟩

/-- C8: the trigger check is idempotent with respect to archiving —
re-flagging an already archived range is the identity, and an archived
message contributes nothing to the context agent's live token count (the
live set is computed only over non-archived messages). -/
theorem c8_idempotent_archiving (tc : String → Nat) (threshold f t : Nat)
    (msgs pre post : List Message) (m : Message)
    (ss : List SessionMemoryOutput) (hm : m.archived = true) :
    markRange (markRange msgs f t) f t = markRange msgs f t ∧
    contextAgent tc threshold ⟨pre ++ m :: post, ss⟩
      = contextAgent tc threshold ⟨pre ++ post, ss⟩ := by
  refine ⟨markRange_idem msgs f t, ?_⟩
  simp [contextAgent, getMessages, List.filter_append, hm]

/-- Witness for C8: inserting an archived message into a one-message
session leaves the context agent's entire output unchanged. -/
theorem c8_idempotent_archiving_witness :
    contextAgent (fun s => s.length) 10
      ⟨[⟨"user", "old", 7, true⟩, ⟨"user", "hi", 6, false⟩], []⟩
      = contextAgent (fun s => s.length) 10 ⟨[⟨"user", "hi", 6, false⟩], []⟩ :=
  (c8_idempotent_archiving (fun s => s.length) 10 0 0 []
    [] [⟨"user", "hi", 6, false⟩] ⟨"user", "old", 7, true⟩ [] rfl).2

/-- `l.isEmpty = false` means `l` is not the empty list. -/
theorem ne_nil_of_isEmpty_eq_false {α : Type} {l : List α}
    (h : l.isEmpty = false) : l ≠ [] := by
  cases l with
  | nil => exact absurd h (by simp)
  | cons a l => simp

/-- Counterexample to C9 as stated: in a turn where compaction succeeds and
the Query agent's generation call then raises, the error does propagate,
but a summary record for that turn has already been written (the session
had no summaries and ends the turn with one). -/
theorem c9_counterexample :
    (runTurn (fun s => s.length) 0
      { parseSummary := fun _ => none
        parseQuery := fun _ => none
        summLLM := .ok "summary text"
        queryLLM := .error "service unreachable"
        respLLM := .ok "resp" }
      ⟨[⟨"user", "hello", 9, false⟩], []⟩ "hi").2 = .error "service unreachable" ∧
    ((runTurn (fun s => s.length) 0
      { parseSummary := fun _ => none
        parseQuery := fun _ => none
        summLLM := .ok "summary text"
        queryLLM := .error "service unreachable"
        respLLM := .ok "resp" }
      ⟨[⟨"user", "hello", 9, false⟩], []⟩ "hi").1).summaries.length = 1 :=
  ⟨rfl, rfl⟩

/-- C9 (amended): an error raised by the generation service is never
caught by the Summarizer or Query agents and propagates to the caller, and
the erroring agent itself has written nothing — when the Summarizer's call
errors, no summary record and no archive-flag update is written for the
turn; when the Query agent's call errors, the turn writes nothing beyond a
compaction already completed earlier in the same turn. -/
theorem c9_error_propagation_amended (tc : String → Nat) (threshold : Nat)
    (o : TurnOracles) (db : SessionDB) (q e : String) :
    ((contextAgent tc threshold db).needsSummarization = true →
      o.summLLM = .error e →
      runTurn tc threshold o db q = (db, .error e)) ∧
    ((contextAgent tc threshold db).needsSummarization = false →
      q ≠ "" → o.queryLLM = .error e →
      runTurn tc threshold o db q = (db, .error e)) ∧
    (∀ s, o.summLLM = .ok s → q ≠ "" → o.queryLLM = .error e →
      runTurn tc threshold o db q =
        ((if (contextAgent tc threshold db).needsSummarization then
            (summarizerAgent o.parseSummary o.summLLM db (getMessages db true)).1
          else db), .error e)) := by
  have hmsgs : (contextAgent tc threshold db).messages = getMessages db true := rfl
  refine ⟨?_, ?_, ?_⟩
  · intro hneed hs
    have hne : (getMessages db true).isEmpty = false := by
      cases hmt : getMessages db true with
      | nil =>
          exfalso
          have h0 : (contextAgent tc threshold db).needsSummarization = false := by
            simp [contextAgent, hmt]
          rw [hneed] at h0
          exact Bool.noConfusion h0
      | cons a l => rfl
    have hsum : summarizerAgent o.parseSummary o.summLLM db (getMessages db true)
        = (db, .error e) := by
      simp [summarizerAgent, hne, hs]
    simp [runTurn, hmsgs, hneed, hsum]
  · intro hneed hq0 hql
    simp [runTurn, hneed, queryAgent, if_neg hq0, hql]
  · intro s hs hq0 hql
    by_cases hneed : (contextAgent tc threshold db).needsSummarization = true
    · by_cases hne : (getMessages db true).isEmpty = true
      · have hsum : summarizerAgent o.parseSummary o.summLLM db (getMessages db true)
            = (db, .ok none) := by
          simp [summarizerAgent, hne]
        simp [runTurn, hmsgs, hneed, hsum, queryAgent, if_neg hq0, hql]
      · rw [Bool.not_eq_true] at hne
        have hsum := summarizerAgent_ok_eq o.parseSummary s db (getMessages db true)
          (ne_nil_of_isEmpty_eq_false hne)
        rw [← hs] at hsum
        simp [runTurn, hmsgs, hneed, hsum, queryAgent, if_neg hq0, hql]
    · rw [Bool.not_eq_true] at hneed
      simp [runTurn, hneed, queryAgent, if_neg hq0, hql]

/-- Witness for the amended C9: a Summarizer-stage service error on an
over-threshold session aborts the turn with the error and leaves the
session state untouched, and a Query-stage service error after a
successful compaction aborts the turn with the durable state exactly the
one the completed compaction left. -/
theorem c9_error_propagation_amended_witness :
    runTurn (fun s => s.length) 0
      { parseSummary := fun _ => none
        parseQuery := fun _ => none
        summLLM := .error "quota exceeded"
        queryLLM := .ok "x"
        respLLM := .ok "y" }
      ⟨[⟨"user", "hello", 9, false⟩], []⟩ "hi"
      = (⟨[⟨"user", "hello", 9, false⟩], []⟩, .error "quota exceeded") ∧
    runTurn (fun s => s.length) 0
      { parseSummary := fun _ => none
        parseQuery := fun _ => none
        summLLM := .ok "summary text"
        queryLLM := .error "service unreachable"
        respLLM := .ok "resp" }
      ⟨[⟨"user", "hello", 9, false⟩], []⟩ "hi"
      = ((if (contextAgent (fun s => s.length) 0
              ⟨[⟨"user", "hello", 9, false⟩], []⟩).needsSummarization then
            (summarizerAgent (fun _ => none) (.ok "summary text")
              ⟨[⟨"user", "hello", 9, false⟩], []⟩
              (getMessages ⟨[⟨"user", "hello", 9, false⟩], []⟩ true)).1
          else ⟨[⟨"user", "hello", 9, false⟩], []⟩), .error "service unreachable") :=
  ⟨(c9_error_propagation_amended (fun s => s.length) 0
      { parseSummary := fun _ => none
        parseQuery := fun _ => none
        summLLM := .error "quota exceeded"
        queryLLM := .ok "x"
        respLLM := .ok "y" }
      ⟨[⟨"user", "hello", 9, false⟩], []⟩ "hi" "quota exceeded").1 (by decide) rfl,
   (c9_error_propagation_amended (fun s => s.length) 0
      { parseSummary := fun _ => none
        parseQuery := fun _ => none
        summLLM := .ok "summary text"
        queryLLM := .error "service unreachable"
        respLLM := .ok "resp" }
      ⟨[⟨"user", "hello", 9, false⟩], []⟩ "hi" "service unreachable").2.2
     "summary text" rfl (by decide) rfl⟩

/-- C10: with an empty user query the query agent leaves the pipeline
state unchanged (no `QueryUnderstanding` is produced, whatever the service
would have returned), and the response agent then answers with the fixed
text `"I need a query to respond to."` without any generation call. -/
theorem c10_empty_query (parse : String → Option QueryUnderstanding)
    (llm llm2 : Except String String) (db : SessionDB) :
    queryAgent parse llm db "" = .ok none ∧
    responseAgent llm2 none =
      .ok { finalResponse := "I need a query to respond to.", genCalled := false } :=
  ⟨rfl, rfl⟩

end AgentMemory
